import Mathlib

/-!
Shallow embedding of an authenticated CRUD web backend: user account
management (register / login / profile update / password change) and a
per-user arithmetic-calculation record service.

The request handlers in `app/routers/users.py` are translated directly.
The collaborating utilities (`app/utils` credential hashing, `app/utils/auth`
token issuance and identity resolution) and the calculation router/schema are
not part of the available source tree and are modelled from the specification;
each such definition carries a doc comment saying so.

The data store is modelled as explicit state (`DB`) threaded through every
handler; a handler that fails returns `Except.error` and produces no new
state, mirroring a rolled-back / untouched transaction.
-/

/-- Status code plus detail string of an HTTP error response
(`HTTPException(status_code=..., detail=...)`). -/
structure ApiError where
  status : Nat
  detail : String
deriving Repr, DecidableEq

/-- Modelled from the spec: the signed-token issuance/validation utility
(`app/utils/auth.py`, not in the source tree) issues a signed access token
naming the user.  The signature is modelled as a deterministic tag over the
subject; validation recomputes and compares it. -/
def signToken (sub : String) : String := "sig:" ++ sub

/-- Modelled from the spec: a signed access token naming a user (`sub`). -/
structure AccessToken where
  sub : String
  sig : String
deriving Repr, DecidableEq

/-- Modelled from the spec: token issuance (`create_access_token(data={"sub": username})`). -/
def create_access_token (sub : String) : AccessToken :=
  { sub := sub, sig := signToken sub }

/-- Modelled from the spec: token validation; yields the subject only when
the signature checks out. -/
def decode_access_token (t : AccessToken) : Option String :=
  if t.sig = signToken t.sub then some t.sub else none

/-- Modelled from the spec: the credential-hashing utility
(`app/utils`, not in the source tree).  Hashing is modelled as an injective
tagging of the password. -/
def hash_password (password : String) : String := "hashed:" ++ password

/-- Modelled from the spec: the credential-verification utility; verification
succeeds exactly when re-hashing the candidate reproduces the stored hash. -/
def verify_password (plain : String) (hashed : String) : Bool :=
  hash_password plain == hashed

/-- User account record (`app.models.User`): id, username, email,
password hash, creation time. -/
structure User where
  id : Nat
  username : String
  email : String
  password_hash : String
  created_at : Nat
deriving Repr, DecidableEq

/-- Arithmetic operation type of a calculation (`CalculationType`). -/
inductive CalculationType where
  | Add
  | Subtract
  | Multiply
  | Divide
deriving Repr, DecidableEq

/-- Stored calculation record (`app.models.Calculation`): operands, operation
type, computed result, owning user. -/
structure Calculation where
  id : Nat
  a : Rat
  b : Rat
  type : CalculationType
  result : Rat
  user_id : Nat
deriving Repr, DecidableEq

/-- Request body of `POST /users/register` (`UserCreate`). -/
structure UserCreate where
  username : String
  email : String
  password : String
deriving Repr, DecidableEq

/-- Response schema `UserRead`: id, username, email, created_at only. -/
structure UserRead where
  id : Nat
  username : String
  email : String
  created_at : Nat
deriving Repr, DecidableEq

/-- Serialization of a `User` through the `UserRead` response schema
(`response_model=UserRead`, `from_attributes=True`). -/
def toUserRead (u : User) : UserRead :=
  { id := u.id, username := u.username, email := u.email, created_at := u.created_at }

/-- Request body of `POST /users/login` (`UserLogin`). -/
structure UserLogin where
  username : String
  password : String
deriving Repr, DecidableEq

/-- Response schema `Token`. -/
structure Token where
  access_token : AccessToken
  token_type : String
deriving Repr, DecidableEq

/-- Request body of `PUT /users/me` (`UserProfileUpdate`); both fields
optional. -/
structure UserProfileUpdate where
  username : Option String
  email : Option String
deriving Repr, DecidableEq

/-- Pydantic validation of `UserProfileUpdate`: a supplied username has
between 3 and 50 characters, a supplied email is a (nonempty) address. -/
def UserProfileUpdate.valid (u : UserProfileUpdate) : Bool :=
  u.username.all (fun n => 3 ≤ n.length && n.length ≤ 50) &&
  u.email.all (fun e => !e.isEmpty)

/-- Request body of `POST /users/change-password` (`PasswordChange`). -/
structure PasswordChange where
  current_password : String
  new_password : String
deriving Repr, DecidableEq

/-- Response schema of `PUT /users/me` (`UserProfileResponse`): updated user,
optional refreshed token, token type. -/
structure UserProfileResponse where
  user : UserRead
  access_token : Option AccessToken
  token_type : String
deriving Repr, DecidableEq

/-- Modelled from the spec: request body of `POST /calculations/`
(`CalculationCreate`, not in the source tree). -/
structure CalculationCreate where
  a : Rat
  b : Rat
  type : CalculationType
deriving Repr, DecidableEq

/-- Modelled from the spec: request body of `PUT /calculations/{id}`
(`CalculationUpdate`, not in the source tree); all fields optional. -/
structure CalculationUpdate where
  a : Option Rat
  b : Option Rat
  type : Option CalculationType
deriving Repr, DecidableEq

/-- The data store: user rows, calculation rows, and the next auto-increment
primary keys. -/
structure DB where
  users : List User
  calcs : List Calculation
  nextUserId : Nat
  nextCalcId : Nat
deriving Repr, DecidableEq

/-- The empty store (fresh `Base.metadata.create_all`). -/
def DB.init : DB := { users := [], calcs := [], nextUserId := 1, nextCalcId := 1 }

instance {ε α : Type} [DecidableEq ε] [DecidableEq α] : DecidableEq (Except ε α) := fun x y =>
  match x, y with
  | .error a, .error b =>
    if h : a = b then .isTrue (congrArg Except.error h)
    else .isFalse (fun hc => h (by injection hc))
  | .error _, .ok _ => .isFalse (fun hc => Except.noConfusion hc)
  | .ok _, .error _ => .isFalse (fun hc => Except.noConfusion hc)
  | .ok a, .ok b =>
    if h : a = b then .isTrue (congrArg Except.ok h)
    else .isFalse (fun hc => h (by injection hc))

/-- Python truthiness of an optional string field (`if update.username:`):
true exactly for a present, nonempty string. -/
def pyTruthy : Option String → Bool
  | some s => !s.isEmpty
  | none => false

/-- Application of an optional field assignment guarded by Python truthiness
(`if update.username: current_user.username = update.username`). -/
def applyOpt (cur : String) (o : Option String) : String :=
  if pyTruthy o then o.getD cur else cur

/-- ORM row update by primary key: every row whose key matches is replaced. -/
def replaceBy {α : Type} (key : α → Nat) (l : List α) (i : Nat) (x : α) : List α :=
  l.map (fun y => if key y == i then x else y)

/-- Commit of an updated user row (`db.commit()` after attribute mutation). -/
def replaceUser (users : List User) (uid : Nat) (u' : User) : List User :=
  replaceBy (fun u => u.id) users uid u'

/-- Commit of an updated calculation row. -/
def replaceCalc (calcs : List Calculation) (cid : Nat) (c' : Calculation) : List Calculation :=
  replaceBy (fun c => c.id) calcs cid c'

/-- Handler of `POST /users/register` (`register_user` in
`app/routers/users.py`): reject a stored email, then a stored username,
otherwise insert the new user with the hashed password and return it
serialized through `UserRead`. -/
def register_user (db : DB) (user : UserCreate) : Except ApiError (UserRead × DB) :=
  if (db.users.find? (fun u => u.email == user.email)).isSome then
    .error { status := 400, detail := "Email already registered" }
  else if (db.users.find? (fun u => u.username == user.username)).isSome then
    .error { status := 400, detail := "Username already taken" }
  else
    let new_user : User :=
      { id := db.nextUserId, username := user.username, email := user.email,
        password_hash := hash_password user.password, created_at := db.nextUserId }
    .ok (toUserRead new_user,
      { db with users := db.users ++ [new_user], nextUserId := db.nextUserId + 1 })

/-- Handler of `POST /users/login` (`login_user`): look the user up by
username, verify the password against the stored hash, and issue a bearer
token; both failure modes answer 401 "Invalid credentials".  The handler
reads the store and never writes it. -/
def login_user (db : DB) (user : UserLogin) : Except ApiError Token :=
  match db.users.find? (fun u => u.username == user.username) with
  | none => .error { status := 401, detail := "Invalid credentials" }
  | some db_user =>
    if verify_password user.password db_user.password_hash then
      .ok { access_token := create_access_token db_user.username, token_type := "bearer" }
    else
      .error { status := 401, detail := "Invalid credentials" }

/-- Modelled from the spec: token-based identity resolution
(`get_current_user` in `app/utils/auth.py`, not in the source tree).
A missing or invalid bearer token, or a token naming no stored user,
is rejected with status 401. -/
def get_current_user (db : DB) (auth : Option AccessToken) : Except ApiError User :=
  match auth with
  | none => .error { status := 401, detail := "Not authenticated" }
  | some tok =>
    match decode_access_token tok with
    | none => .error { status := 401, detail := "Could not validate credentials" }
    | some name =>
      match db.users.find? (fun u => u.username == name) with
      | none => .error { status := 401, detail := "Could not validate credentials" }
      | some u => .ok u

/-- Handler of `GET /users/me` (`read_current_user`): the authenticated user
serialized through `UserRead`. -/
def read_current_user (db : DB) (auth : Option AccessToken) : Except ApiError UserRead :=
  (get_current_user db auth).map toUserRead

/-- Uniqueness check of `update_current_user`: a supplied, truthy username
differing from the current one that some stored user already holds. -/
def usernameTaken (db : DB) (cu : User) (o : Option String) : Bool :=
  match o with
  | some n =>
    !n.isEmpty && n != cu.username && (db.users.find? (fun u => u.username == n)).isSome
  | none => false

/-- Uniqueness check of `update_current_user` for the email field. -/
def emailTaken (db : DB) (cu : User) (o : Option String) : Bool :=
  match o with
  | some e =>
    !e.isEmpty && e != cu.email && (db.users.find? (fun u => u.email == e)).isSome
  | none => false

/-- Handler of `PUT /users/me` (`update_current_user`): reject a taken
username, then a taken email; otherwise apply the supplied fields, commit,
and return the updated user with a refreshed token exactly when a username
was supplied. -/
def update_current_user (db : DB) (auth : Option AccessToken) (update : UserProfileUpdate) :
    Except ApiError (UserProfileResponse × DB) :=
  match get_current_user db auth with
  | .error e => .error e
  | .ok current_user =>
    if usernameTaken db current_user update.username then
      .error { status := 400, detail := "Username already taken" }
    else if emailTaken db current_user update.email then
      .error { status := 400, detail := "Email already registered" }
    else
      let cu' : User := { current_user with
        username := applyOpt current_user.username update.username,
        email := applyOpt current_user.email update.email }
      let db' : DB := { db with users := replaceUser db.users current_user.id cu' }
      let new_token : Option AccessToken :=
        if pyTruthy update.username then some (create_access_token cu'.username) else none
      .ok ({ user := toUserRead cu', access_token := new_token, token_type := "bearer" }, db')

/-- Handler of `POST /users/change-password` (`change_password`): verify the
current password against the stored hash, then replace the hash with the hash
of the new password and commit. -/
def change_password (db : DB) (auth : Option AccessToken) (payload : PasswordChange) :
    Except ApiError (String × DB) :=
  match get_current_user db auth with
  | .error e => .error e
  | .ok current_user =>
    if !verify_password payload.current_password current_user.password_hash then
      .error { status := 400, detail := "Current password is incorrect" }
    else
      let cu' : User := { current_user with
        password_hash := hash_password payload.new_password }
      .ok ("Password updated successfully",
        { db with users := replaceUser db.users current_user.id cu' })

/-- Modelled from the spec: the arithmetic a calculation record stores,
by operation type. -/
def computeResult : CalculationType → Rat → Rat → Rat
  | .Add, a, b => a + b
  | .Subtract, a, b => a - b
  | .Multiply, a, b => a * b
  | .Divide, a, b => a / b

/-- Modelled from the spec: handler of `POST /calculations/` (calculation
router not in the source tree).  The one-line division-by-zero guard rejects
a `Divide` request with zero divisor with status 422 before anything is
stored; otherwise the calculation is stored with its computed result, owned
by the authenticated user. -/
def create_calculation (db : DB) (auth : Option AccessToken) (req : CalculationCreate) :
    Except ApiError (Calculation × DB) :=
  match get_current_user db auth with
  | .error e => .error e
  | .ok current_user =>
    if req.type = CalculationType.Divide ∧ req.b = 0 then
      .error { status := 422, detail := "Division by zero is not allowed" }
    else
      let c : Calculation :=
        { id := db.nextCalcId, a := req.a, b := req.b, type := req.type,
          result := computeResult req.type req.a req.b, user_id := current_user.id }
      .ok (c, { db with calcs := db.calcs ++ [c], nextCalcId := db.nextCalcId + 1 })

/-- Modelled from the spec: handler of `GET /calculations/`, returning the
authenticated user's calculations only. -/
def read_calculations (db : DB) (auth : Option AccessToken) :
    Except ApiError (List Calculation) :=
  (get_current_user db auth).map
    (fun current_user => db.calcs.filter (fun c => c.user_id == current_user.id))

/-- Modelled from the spec: handler of `GET /calculations/{id}`; a
calculation of another user (or no calculation at all) answers 404. -/
def read_calculation (db : DB) (auth : Option AccessToken) (cid : Nat) :
    Except ApiError Calculation :=
  match get_current_user db auth with
  | .error e => .error e
  | .ok current_user =>
    match db.calcs.find? (fun c => c.id == cid && c.user_id == current_user.id) with
    | none => .error { status := 404, detail := "Calculation not found" }
    | some c => .ok c

/-- Modelled from the spec: handler of `PUT /calculations/{id}`: apply the
supplied fields, re-run the division-by-zero guard on the effective values,
recompute the result, and commit. -/
def update_calculation (db : DB) (auth : Option AccessToken) (cid : Nat)
    (update : CalculationUpdate) : Except ApiError (Calculation × DB) :=
  match get_current_user db auth with
  | .error e => .error e
  | .ok current_user =>
    match db.calcs.find? (fun c => c.id == cid && c.user_id == current_user.id) with
    | none => .error { status := 404, detail := "Calculation not found" }
    | some c =>
      let newA := update.a.getD c.a
      let newB := update.b.getD c.b
      let newType := update.type.getD c.type
      if newType = CalculationType.Divide ∧ newB = 0 then
        .error { status := 422, detail := "Division by zero is not allowed" }
      else
        let c' : Calculation := { c with
          a := newA, b := newB, type := newType,
          result := computeResult newType newA newB }
        .ok (c', { db with calcs := replaceCalc db.calcs c.id c' })

/-- Modelled from the spec: handler of `DELETE /calculations/{id}` (204 on
success, modelled as `Unit`). -/
def delete_calculation (db : DB) (auth : Option AccessToken) (cid : Nat) :
    Except ApiError (Unit × DB) :=
  match get_current_user db auth with
  | .error e => .error e
  | .ok current_user =>
    match db.calcs.find? (fun c => c.id == cid && c.user_id == current_user.id) with
    | none => .error { status := 404, detail := "Calculation not found" }
    | some c =>
      .ok ((), { db with calcs := db.calcs.filter (fun x => x.id != c.id) })

/-- Store invariant: unique user ids / usernames / emails, ids below the
auto-increment counters, unique calculation ids, and no stored `Divide`
calculation with zero divisor. -/
def DBInv (db : DB) : Prop :=
  (db.users.map (fun u => u.id)).Nodup ∧
  (db.users.map (fun u => u.username)).Nodup ∧
  (db.users.map (fun u => u.email)).Nodup ∧
  (∀ u ∈ db.users, u.id < db.nextUserId) ∧
  (db.calcs.map (fun c => c.id)).Nodup ∧
  (∀ c ∈ db.calcs, c.id < db.nextCalcId) ∧
  (∀ c ∈ db.calcs, c.type = CalculationType.Divide → c.b ≠ 0)

instance (db : DB) : Decidable (DBInv db) := by
  unfold DBInv
  infer_instance

/-- The states reachable from the empty store through the API's mutating
handlers (read-only handlers return no state). -/
inductive Reachable : DB → Prop where
  | init : Reachable DB.init
  | register {db req r db'} : Reachable db →
      register_user db req = .ok (r, db') → Reachable db'
  | profileUpdate {db auth upd r db'} : Reachable db →
      update_current_user db auth upd = .ok (r, db') → Reachable db'
  | passwordChange {db auth payload r db'} : Reachable db →
      change_password db auth payload = .ok (r, db') → Reachable db'
  | calcCreate {db auth req c db'} : Reachable db →
      create_calculation db auth req = .ok (c, db') → Reachable db'
  | calcUpdate {db auth cid upd c db'} : Reachable db →
      update_calculation db auth cid upd = .ok (c, db') → Reachable db'
  | calcDelete {db auth cid r db'} : Reachable db →
      delete_calculation db auth cid = .ok (r, db') → Reachable db'

/-! ## Named sub-terms of the handlers (used to state extraction lemmas) -/

/-- The user row `register_user` inserts for a request. -/
def newUserOf (db : DB) (req : UserCreate) : User :=
  { id := db.nextUserId, username := req.username, email := req.email,
    password_hash := hash_password req.password, created_at := db.nextUserId }

/-- The user row after `update_current_user` applies the supplied fields. -/
def appliedUser (cu : User) (upd : UserProfileUpdate) : User :=
  { cu with
    username := applyOpt cu.username upd.username,
    email := applyOpt cu.email upd.email }

/-- The response body of a successful `update_current_user`. -/
def profileResp (cu : User) (upd : UserProfileUpdate) : UserProfileResponse :=
  { user := toUserRead (appliedUser cu upd),
    access_token := if pyTruthy upd.username then
      some (create_access_token (appliedUser cu upd).username) else none,
    token_type := "bearer" }

/-- The user row after `change_password` replaces the stored hash. -/
def pwUser (cu : User) (payload : PasswordChange) : User :=
  { cu with password_hash := hash_password payload.new_password }

/-- The calculation row `create_calculation` inserts for a request. -/
def newCalcOf (db : DB) (req : CalculationCreate) (cu : User) : Calculation :=
  { id := db.nextCalcId, a := req.a, b := req.b, type := req.type,
    result := computeResult req.type req.a req.b, user_id := cu.id }

/-- The calculation row after `update_calculation` applies the supplied
fields and recomputes the result. -/
def updatedCalc (c0 : Calculation) (upd : CalculationUpdate) : Calculation :=
  { c0 with
    a := upd.a.getD c0.a,
    b := upd.b.getD c0.b,
    type := upd.type.getD c0.type,
    result := computeResult (upd.type.getD c0.type) (upd.a.getD c0.a) (upd.b.getD c0.b) }

/-! ## Concrete test fixtures -/

/-- Test fixture: a stored user "alice". -/
def aliceW : User :=
  { id := 1, username := "alice", email := "alice@example.com",
    password_hash := hash_password "securepass123", created_at := 1 }

/-- Test fixture: a stored user "bob". -/
def bobW : User :=
  { id := 2, username := "bob", email := "bob@example.com",
    password_hash := hash_password "bobpass9999", created_at := 2 }

/-- Test fixture: a calculation owned by alice. -/
def calcW : Calculation :=
  { id := 1, a := 10, b := 5, type := CalculationType.Add, result := 15, user_id := 1 }

/-- Test fixture: a calculation owned by bob. -/
def calcBobW : Calculation :=
  { id := 2, a := 2, b := 3, type := CalculationType.Multiply, result := 6, user_id := 2 }

/-- Test fixture: a store holding alice and bob and one calculation each. -/
def dbW : DB :=
  { users := [aliceW, bobW], calcs := [calcW, calcBobW],
    nextUserId := 3, nextCalcId := 3 }

/-- Test fixture: a valid token for alice. -/
def tokW : AccessToken := create_access_token "alice"

/-- Test fixture: a calculation-create request. -/
def calcReqW : CalculationCreate := { a := 10, b := 5, type := CalculationType.Add }

/-- Test fixture: the calculation row created from `calcReqW` by alice. -/
def newCalcW : Calculation := newCalcOf dbW calcReqW aliceW

/-- Test fixture: the store after alice creates `calcReqW`. -/
def dbWAfterCreate : DB :=
  { dbW with calcs := dbW.calcs ++ [newCalcW], nextCalcId := dbW.nextCalcId + 1 }

/-- Test fixture: a profile update supplying only a new username. -/
def updW : UserProfileUpdate := { username := some "newalice", email := none }

/-- Test fixture: the response of alice applying `updW`. -/
def respW : UserProfileResponse := profileResp aliceW updW

/-- Test fixture: the store after alice applies `updW`. -/
def dbWAfterUpdate : DB :=
  { dbW with users := replaceUser dbW.users aliceW.id (appliedUser aliceW updW) }

/-- Test fixture: a password change for alice to a fresh password. -/
def pwPayloadW : PasswordChange :=
  { current_password := "securepass123", new_password := "newpass456x" }

/-- Test fixture: the store after alice applies `pwPayloadW`. -/
def dbWAfterPw : DB :=
  { dbW with users := replaceUser dbW.users aliceW.id (pwUser aliceW pwPayloadW) }

/-! ## Helper lemmas -/

theorem hash_password_inj {p q : String} (h : hash_password p = hash_password q) : p = q := by
  unfold hash_password at h
  have hd := congrArg String.data h
  rw [String.data_append, String.data_append] at hd
  exact String.ext (List.append_cancel_left hd)

theorem verify_password_iff (p h : String) :
    verify_password p h = true ↔ hash_password p = h := by
  unfold verify_password
  exact beq_iff_eq

theorem verify_hash_iff (p q : String) :
    verify_password p (hash_password q) = true ↔ p = q := by
  rw [verify_password_iff]
  exact ⟨fun h => hash_password_inj h, fun h => h ▸ rfl⟩

theorem decode_create_access_token (sub : String) :
    decode_access_token (create_access_token sub) = some sub := by
  simp [decode_access_token, create_access_token]

theorem nodup_append_singleton {β : Type} {l : List β} {x : β}
    (h : l.Nodup) (hx : x ∉ l) : (l ++ [x]).Nodup := by
  rw [List.nodup_append]
  exact ⟨h, List.nodup_singleton x, List.disjoint_singleton.mpr hx⟩

theorem mem_replaceBy {α : Type} {key : α → Nat} {l : List α} {i : Nat} {x v : α}
    (h : v ∈ replaceBy key l i x) : v = x ∨ v ∈ l := by
  unfold replaceBy at h
  obtain ⟨y, hy, hv⟩ := List.mem_map.mp h
  by_cases hk : (key y == i) = true
  · rw [if_pos hk] at hv
    exact Or.inl hv.symm
  · rw [if_neg hk] at hv
    exact Or.inr (hv ▸ hy)

theorem replaceBy_eq_self {α : Type} {key : α → Nat} {l : List α} {i : Nat} {x : α}
    (h : ∀ y ∈ l, key y ≠ i) : replaceBy key l i x = l := by
  unfold replaceBy
  have hc : ∀ y ∈ l, (if key y == i then x else y) = id y := by
    intro y hy
    simp [h y hy]
  rw [List.map_congr_left hc, List.map_id]

theorem map_replaceBy_eq {α β : Type} {key : α → Nat} (f : α → β) {l : List α} {i : Nat}
    {x : α} (h : ∀ y ∈ l, key y = i → f x = f y) :
    (replaceBy key l i x).map f = l.map f := by
  unfold replaceBy
  rw [List.map_map]
  apply List.map_congr_left
  intro y hy
  by_cases hk : (key y == i) = true
  · simp only [Function.comp, if_pos hk]
    exact h y hy (beq_iff_eq.mp hk)
  · simp only [Function.comp, if_neg hk]

theorem nodup_map_replaceBy {α β : Type} {key : α → Nat} (f : α → β) {l : List α} {i : Nat}
    {x : α} (hk : (l.map key).Nodup) (hf : (l.map f).Nodup)
    (hfresh : ∀ y ∈ l, f y ≠ f x) : ((replaceBy key l i x).map f).Nodup := by
  induction l with
  | nil => simp [replaceBy]
  | cons u us ih =>
    simp only [List.map_cons, List.nodup_cons] at hk hf
    have hrec : ((replaceBy key us i x).map f).Nodup :=
      ih hk.2 hf.2 (fun y hy => hfresh y (List.mem_cons_of_mem u hy))
    by_cases hu : (key u == i) = true
    · have hkey : key u = i := beq_iff_eq.mp hu
      have hnone : ∀ y ∈ us, key y ≠ i := by
        intro y hy hcon
        have hmem : key y ∈ us.map key := List.mem_map.mpr ⟨y, hy, rfl⟩
        rw [hcon, ← hkey] at hmem
        exact hk.1 hmem
      show ((replaceBy key (u :: us) i x).map f).Nodup
      unfold replaceBy
      simp only [List.map_cons, if_pos hu, List.map_map]
      rw [show (List.map (f ∘ fun y => if key y == i then x else y) us) = us.map f by
        apply List.map_congr_left
        intro y hy
        simp only [Function.comp]
        rw [if_neg (by simp [hnone y hy])]]
      refine List.nodup_cons.mpr ⟨?_, hf.2⟩
      intro hmem
      obtain ⟨y, hy, hfy⟩ := List.mem_map.mp hmem
      exact hfresh y (List.mem_cons_of_mem u hy) hfy
    · show ((replaceBy key (u :: us) i x).map f).Nodup
      unfold replaceBy
      simp only [List.map_cons, if_neg hu]
      refine List.nodup_cons.mpr ⟨?_, hrec⟩
      intro hmem
      obtain ⟨v, hv, hfv⟩ := List.mem_map.mp hmem
      rcases mem_replaceBy hv with rfl | hvin
      · exact hfresh u (List.mem_cons_self u us) hfv.symm
      · exact hf.1 (List.mem_map.mpr ⟨v, hvin, hfv⟩)

theorem find?_replaceBy {α : Type} {key : α → Nat} {p : α → Bool} {l : List α} {a x : α}
    (hfind : l.find? p = some a) (hk : (l.map key).Nodup)
    (hx : key x = key a) (hpx : p x = true) :
    (replaceBy key l (key a) x).find? p = some x := by
  induction l with
  | nil => simp at hfind
  | cons u us ih =>
    simp only [List.map_cons, List.nodup_cons] at hk
    by_cases hu : p u = true
    · rw [List.find?_cons_of_pos _ hu] at hfind
      have hua : u = a := by injection hfind
      subst hua
      unfold replaceBy
      rw [List.map_cons, if_pos (beq_iff_eq.mpr rfl)]
      exact List.find?_cons_of_pos _ hpx
    · rw [List.find?_cons_of_neg _ hu] at hfind
      have hane : key u ≠ key a := by
        intro hcon
        have hmem : key a ∈ us.map key :=
          List.mem_map.mpr ⟨a, List.mem_of_find?_eq_some hfind, rfl⟩
        rw [← hcon] at hmem
        exact hk.1 hmem
      have hif : (if (key u == key a) = true then x else u) = u :=
        if_neg (by simp [hane])
      unfold replaceBy
      rw [List.map_cons, hif, List.find?_cons_of_neg _ hu]
      have hrec := ih hfind hk.2
      unfold replaceBy at hrec
      exact hrec

theorem get_current_user_none (db : DB) :
    get_current_user db none = .error { status := 401, detail := "Not authenticated" } := rfl

theorem get_current_user_some_eq (db : DB) (tok : AccessToken) :
    get_current_user db (some tok) =
      match decode_access_token tok with
      | none => .error { status := 401, detail := "Could not validate credentials" }
      | some name =>
        match db.users.find? (fun u => u.username == name) with
        | none => .error { status := 401, detail := "Could not validate credentials" }
        | some u => .ok u := rfl

theorem get_current_user_error_401 {db : DB} {auth : Option AccessToken} {e : ApiError}
    (h : get_current_user db auth = .error e) : e.status = 401 := by
  cases auth with
  | none =>
    rw [get_current_user_none] at h
    cases h
    rfl
  | some tok =>
    rw [get_current_user_some_eq] at h
    split at h
    · cases h
      rfl
    · split at h
      · cases h
        rfl
      · cases h

theorem get_current_user_find {db : DB} {auth : Option AccessToken} {cu : User}
    (h : get_current_user db auth = .ok cu) :
    db.users.find? (fun u => u.username == cu.username) = some cu := by
  cases auth with
  | none => rw [get_current_user_none] at h; cases h
  | some tok =>
    rw [get_current_user_some_eq] at h
    split at h
    · cases h
    next name hd =>
      split at h
      · cases h
      next u hf =>
        have hu : u = cu := by cases h; rfl
        subst hu
        have hp : ((fun v : User => v.username == name) u) = true :=
          @List.find?_some User (fun v => v.username == name) u db.users hf
        have hname : u.username = name := beq_iff_eq.mp hp
        rw [← hname] at hf
        exact hf

theorem get_current_user_mem {db : DB} {auth : Option AccessToken} {cu : User}
    (h : get_current_user db auth = .ok cu) : cu ∈ db.users :=
  List.mem_of_find?_eq_some (get_current_user_find h)

theorem find?_not_isSome {α : Type} {p : α → Bool} {l : List α}
    (h : ¬ (l.find? p).isSome = true) : ∀ x ∈ l, ¬ p x = true :=
  List.find?_eq_none.mp (Option.not_isSome_iff_eq_none.mp h)

theorem key_not_mem_of_lt {α : Type} {key : α → Nat} {l : List α} {n : Nat}
    (h : ∀ x ∈ l, key x < n) : n ∉ l.map key := by
  intro hmem
  obtain ⟨x, hx, hkx⟩ := List.mem_map.mp hmem
  exact absurd (hkx ▸ h x hx) (lt_irrefl n)

theorem register_user_inv {db : DB} {req : UserCreate} {r : UserRead} {db' : DB}
    (h : register_user db req = .ok (r, db')) (hinv : DBInv db) : DBInv db' := by
  obtain ⟨h1, h2, h3, h4, h5, h6, h7⟩ := hinv
  unfold register_user at h
  split at h
  · exact Except.noConfusion h
  next hne =>
    split at h
    · exact Except.noConfusion h
    next hnn =>
      simp only [Except.ok.injEq, Prod.mk.injEq] at h
      obtain ⟨hr, hdb⟩ := h
      subst hdb
      refine ⟨?_, ?_, ?_, ?_, h5, h6, h7⟩
      · rw [List.map_append]
        exact nodup_append_singleton h1 (key_not_mem_of_lt h4)
      · rw [List.map_append]
        refine nodup_append_singleton h2 ?_
        intro hmem
        obtain ⟨u, hu, hun⟩ := List.mem_map.mp hmem
        exact find?_not_isSome hnn u hu (by simp [hun])
      · rw [List.map_append]
        refine nodup_append_singleton h3 ?_
        intro hmem
        obtain ⟨u, hu, hue⟩ := List.mem_map.mp hmem
        exact find?_not_isSome hne u hu (by simp [hue])
      · intro u hu
        rcases List.mem_append.mp hu with hin | hnew
        · exact Nat.lt_trans (h4 u hin) (Nat.lt_succ_self _)
        · rw [List.mem_singleton.mp hnew]
          exact Nat.lt_succ_self _

theorem change_password_inv {db : DB} {auth : Option AccessToken} {payload : PasswordChange}
    {r : String} {db' : DB}
    (h : change_password db auth payload = .ok (r, db')) (hinv : DBInv db) : DBInv db' := by
  obtain ⟨h1, h2, h3, h4, h5, h6, h7⟩ := hinv
  unfold change_password at h
  cases hcu : get_current_user db auth with
  | error e => rw [hcu] at h; exact Except.noConfusion h
  | ok cu =>
    rw [hcu] at h
    simp only [] at h
    cases hver : verify_password payload.current_password cu.password_hash with
    | false =>
      rw [hver] at h
      simp at h
    | true =>
      rw [hver] at h
      simp only [Bool.not_true, Bool.false_eq_true, if_false, Except.ok.injEq,
        Prod.mk.injEq] at h
      obtain ⟨hr, hdb⟩ := h
      subst hdb
      have hmem := get_current_user_mem hcu
      have hid : ∀ y ∈ db.users, y.id = cu.id →
          ({ cu with password_hash := hash_password payload.new_password } : User).id = y.id := by
        intro y hy hyid
        simp [hyid]
      refine ⟨?_, ?_, ?_, ?_, h5, h6, h7⟩
      · rw [replaceUser, map_replaceBy_eq _ hid]
        exact h1
      · rw [replaceUser, map_replaceBy_eq _ ?_]
        · exact h2
        · intro y hy hyid
          have hy_eq : y = cu := List.inj_on_of_nodup_map h1 hy hmem (by simp [hyid])
          rw [hy_eq]
      · rw [replaceUser, map_replaceBy_eq _ ?_]
        · exact h3
        · intro y hy hyid
          have hy_eq : y = cu := List.inj_on_of_nodup_map h1 hy hmem (by simp [hyid])
          rw [hy_eq]
      · intro u hu
        rcases mem_replaceBy hu with rfl | hin
        · exact h4 cu hmem
        · exact h4 u hin

theorem usernameTaken_false_fresh {db : DB} {cu : User} {o : Option String}
    (hf : usernameTaken db cu o = false)
    (hne : applyOpt cu.username o ≠ cu.username) :
    ∀ y ∈ db.users, y.username ≠ applyOpt cu.username o := by
  cases o with
  | none => simp [applyOpt, pyTruthy] at hne
  | some n =>
    by_cases hemp : n.isEmpty = true
    · simp [applyOpt, pyTruthy, hemp] at hne
    · have happ : applyOpt cu.username (some n) = n := by
        simp [applyOpt, pyTruthy, hemp]
      rw [happ] at hne ⊢
      unfold usernameTaken at hf
      simp only [hemp, Bool.not_false, Bool.true_and, Bool.and_eq_false_iff] at hf
      intro y hy hcon
      rcases hf with hf1 | hf2
      · exact hne (bne_eq_false_iff_eq.mp hf1)
      · have hn := @find?_not_isSome User (fun u => u.username == n) db.users
          (by simp [hf2]) y hy
        simp [hcon] at hn

theorem emailTaken_false_fresh {db : DB} {cu : User} {o : Option String}
    (hf : emailTaken db cu o = false)
    (hne : applyOpt cu.email o ≠ cu.email) :
    ∀ y ∈ db.users, y.email ≠ applyOpt cu.email o := by
  cases o with
  | none => simp [applyOpt, pyTruthy] at hne
  | some e =>
    by_cases hemp : e.isEmpty = true
    · simp [applyOpt, pyTruthy, hemp] at hne
    · have happ : applyOpt cu.email (some e) = e := by
        simp [applyOpt, pyTruthy, hemp]
      rw [happ] at hne ⊢
      unfold emailTaken at hf
      simp only [hemp, Bool.not_false, Bool.true_and, Bool.and_eq_false_iff] at hf
      intro y hy hcon
      rcases hf with hf1 | hf2
      · exact hne (bne_eq_false_iff_eq.mp hf1)
      · have hn := @find?_not_isSome User (fun u => u.email == e) db.users
          (by simp [hf2]) y hy
        simp [hcon] at hn

theorem update_current_user_inv {db : DB} {auth : Option AccessToken}
    {upd : UserProfileUpdate} {r : UserProfileResponse} {db' : DB}
    (h : update_current_user db auth upd = .ok (r, db')) (hinv : DBInv db) : DBInv db' := by
  obtain ⟨h1, h2, h3, h4, h5, h6, h7⟩ := hinv
  unfold update_current_user at h
  cases hcu : get_current_user db auth with
  | error e => rw [hcu] at h; exact Except.noConfusion h
  | ok cu =>
    rw [hcu] at h
    simp only [] at h
    cases hu : usernameTaken db cu upd.username with
    | true => rw [hu] at h; simp at h
    | false =>
      rw [hu] at h
      cases he : emailTaken db cu upd.email with
      | true => rw [he] at h; simp at h
      | false =>
        rw [he] at h
        simp only [Bool.false_eq_true, if_false, Except.ok.injEq, Prod.mk.injEq] at h
        obtain ⟨hr, hdb⟩ := h
        subst hdb
        have hmem := get_current_user_mem hcu
        refine ⟨?_, ?_, ?_, ?_, h5, h6, h7⟩
        · rw [replaceUser, map_replaceBy_eq _ ?_]
          · exact h1
          · intro y hy hyid
            simp [hyid]
        · by_cases hsame : applyOpt cu.username upd.username = cu.username
          · rw [replaceUser, map_replaceBy_eq _ ?_]
            · exact h2
            · intro y hy hyid
              have hy_eq : y = cu := List.inj_on_of_nodup_map h1 hy hmem (by simp [hyid])
              rw [hy_eq]
              exact hsame
          · rw [replaceUser]
            exact nodup_map_replaceBy _ h1 h2 (usernameTaken_false_fresh hu hsame)
        · by_cases hsame : applyOpt cu.email upd.email = cu.email
          · rw [replaceUser, map_replaceBy_eq _ ?_]
            · exact h3
            · intro y hy hyid
              have hy_eq : y = cu := List.inj_on_of_nodup_map h1 hy hmem (by simp [hyid])
              rw [hy_eq]
              exact hsame
          · rw [replaceUser]
            exact nodup_map_replaceBy _ h1 h3 (emailTaken_false_fresh he hsame)
        · intro u hu2
          rcases mem_replaceBy hu2 with rfl | hin
          · exact h4 cu hmem
          · exact h4 u hin

theorem create_calculation_inv {db : DB} {auth : Option AccessToken}
    {req : CalculationCreate} {c : Calculation} {db' : DB}
    (h : create_calculation db auth req = .ok (c, db')) (hinv : DBInv db) : DBInv db' := by
  obtain ⟨h1, h2, h3, h4, h5, h6, h7⟩ := hinv
  unfold create_calculation at h
  cases hcu : get_current_user db auth with
  | error e => rw [hcu] at h; exact Except.noConfusion h
  | ok cu =>
    rw [hcu] at h
    simp only [] at h
    by_cases hg : req.type = CalculationType.Divide ∧ req.b = 0
    · rw [if_pos hg] at h
      simp at h
    · rw [if_neg hg] at h
      simp only [Except.ok.injEq, Prod.mk.injEq] at h
      obtain ⟨hc, hdb⟩ := h
      subst hdb
      refine ⟨h1, h2, h3, h4, ?_, ?_, ?_⟩
      · rw [List.map_append]
        exact nodup_append_singleton h5 (key_not_mem_of_lt h6)
      · intro x hx
        rcases List.mem_append.mp hx with hin | hnew
        · exact Nat.lt_trans (h6 x hin) (Nat.lt_succ_self _)
        · rw [List.mem_singleton.mp hnew]
          exact Nat.lt_succ_self _
      · intro x hx hdiv
        rcases List.mem_append.mp hx with hin | hnew
        · exact h7 x hin hdiv
        · rw [List.mem_singleton.mp hnew] at hdiv ⊢
          intro hb0
          exact hg ⟨hdiv, hb0⟩

theorem update_calculation_inv {db : DB} {auth : Option AccessToken} {cid : Nat}
    {upd : CalculationUpdate} {c : Calculation} {db' : DB}
    (h : update_calculation db auth cid upd = .ok (c, db')) (hinv : DBInv db) : DBInv db' := by
  obtain ⟨h1, h2, h3, h4, h5, h6, h7⟩ := hinv
  unfold update_calculation at h
  cases hcu : get_current_user db auth with
  | error e => rw [hcu] at h; exact Except.noConfusion h
  | ok cu =>
    rw [hcu] at h
    simp only [] at h
    cases hfind : db.calcs.find? (fun x => x.id == cid && x.user_id == cu.id) with
    | none => rw [hfind] at h; simp at h
    | some c0 =>
      rw [hfind] at h
      simp only [] at h
      by_cases hg : upd.type.getD c0.type = CalculationType.Divide ∧ upd.b.getD c0.b = 0
      · rw [if_pos hg] at h
        simp at h
      · rw [if_neg hg] at h
        simp only [Except.ok.injEq, Prod.mk.injEq] at h
        obtain ⟨hc, hdb⟩ := h
        subst hdb
        have hmem := List.mem_of_find?_eq_some hfind
        refine ⟨h1, h2, h3, h4, ?_, ?_, ?_⟩
        · rw [replaceCalc, map_replaceBy_eq _ ?_]
          · exact h5
          · intro y hy hyid
            simp [hyid]
        · intro x hx
          rcases mem_replaceBy hx with rfl | hin
          · exact h6 c0 hmem
          · exact h6 x hin
        · intro x hx hdiv
          rcases mem_replaceBy hx with rfl | hin
          · intro hb0
            exact hg ⟨hdiv, hb0⟩
          · exact h7 x hin hdiv

theorem delete_calculation_inv {db : DB} {auth : Option AccessToken} {cid : Nat}
    {r : Unit} {db' : DB}
    (h : delete_calculation db auth cid = .ok (r, db')) (hinv : DBInv db) : DBInv db' := by
  obtain ⟨h1, h2, h3, h4, h5, h6, h7⟩ := hinv
  unfold delete_calculation at h
  cases hcu : get_current_user db auth with
  | error e => rw [hcu] at h; exact Except.noConfusion h
  | ok cu =>
    rw [hcu] at h
    simp only [] at h
    cases hfind : db.calcs.find? (fun x => x.id == cid && x.user_id == cu.id) with
    | none => rw [hfind] at h; simp at h
    | some c0 =>
      rw [hfind] at h
      simp only [Except.ok.injEq, Prod.mk.injEq] at h
      obtain ⟨hr, hdb⟩ := h
      subst hdb
      refine ⟨h1, h2, h3, h4, ?_, ?_, ?_⟩
      · exact ((List.filter_sublist _).map _).nodup h5
      · intro x hx
        exact h6 x (List.mem_filter.mp hx).1
      · intro x hx
        exact h7 x (List.mem_filter.mp hx).1

theorem reachable_DBInv {db : DB} (h : Reachable db) : DBInv db := by
  induction h with
  | init => decide
  | register hprev hop ih => exact register_user_inv hop ih
  | profileUpdate hprev hop ih => exact update_current_user_inv hop ih
  | passwordChange hprev hop ih => exact change_password_inv hop ih
  | calcCreate hprev hop ih => exact create_calculation_inv hop ih
  | calcUpdate hprev hop ih => exact update_calculation_inv hop ih
  | calcDelete hprev hop ih => exact delete_calculation_inv hop ih


theorem mem_replaceBy_of_mem {α : Type} {key : α → Nat} {l : List α} {i : Nat} {y x : α}
    (hy : y ∈ l) (hk : key y = i) : x ∈ replaceBy key l i x := by
  unfold replaceBy
  exact List.mem_map.mpr ⟨y, hy, by rw [if_pos (beq_iff_eq.mpr hk)]⟩

theorem register_user_ok {db : DB} {req : UserCreate} {r : UserRead} {db' : DB}
    (h : register_user db req = .ok (r, db')) :
    (∀ u ∈ db.users, u.email ≠ req.email) ∧
    (∀ u ∈ db.users, u.username ≠ req.username) ∧
    r = toUserRead (newUserOf db req) ∧
    db' = { db with
      users := db.users ++ [newUserOf db req],
      nextUserId := db.nextUserId + 1 } := by
  unfold register_user at h
  split at h
  · exact Except.noConfusion h
  next hne =>
    split at h
    · exact Except.noConfusion h
    next hnn =>
      simp only [Except.ok.injEq, Prod.mk.injEq] at h
      refine ⟨?_, ?_, h.1.symm, h.2.symm⟩
      · intro u hu hcon
        exact find?_not_isSome hne u hu (by simp [hcon])
      · intro u hu hcon
        exact find?_not_isSome hnn u hu (by simp [hcon])

theorem register_email_conflict {db : DB} {req : UserCreate}
    (he : ∃ u ∈ db.users, u.email = req.email) :
    register_user db req = .error { status := 400, detail := "Email already registered" } := by
  unfold register_user
  rw [if_pos]
  obtain ⟨u, hu, hue⟩ := he
  exact List.find?_isSome.mpr ⟨u, hu, by simp [hue]⟩

theorem register_username_conflict {db : DB} {req : UserCreate}
    (he : ∀ u ∈ db.users, u.email ≠ req.email)
    (hn : ∃ u ∈ db.users, u.username = req.username) :
    register_user db req = .error { status := 400, detail := "Username already taken" } := by
  unfold register_user
  rw [if_neg, if_pos]
  · obtain ⟨u, hu, hun⟩ := hn
    exact List.find?_isSome.mpr ⟨u, hu, by simp [hun]⟩
  · intro hs
    obtain ⟨u, hu, hue⟩ := List.find?_isSome.mp hs
    exact he u hu (by simpa using hue)

theorem login_user_ok {db : DB} {creds : UserLogin} {u : User}
    (hfind : db.users.find? (fun x => x.username == creds.username) = some u)
    (hver : verify_password creds.password u.password_hash = true) :
    login_user db creds =
      .ok { access_token := create_access_token u.username, token_type := "bearer" } := by
  unfold login_user
  rw [hfind]
  simp only [hver, if_true]

theorem login_user_no_user {db : DB} {creds : UserLogin}
    (h : db.users.find? (fun x => x.username == creds.username) = none) :
    login_user db creds = .error { status := 401, detail := "Invalid credentials" } := by
  unfold login_user
  rw [h]

theorem login_user_bad_password {db : DB} {creds : UserLogin} {u : User}
    (hfind : db.users.find? (fun x => x.username == creds.username) = some u)
    (hver : verify_password creds.password u.password_hash = false) :
    login_user db creds = .error { status := 401, detail := "Invalid credentials" } := by
  unfold login_user
  rw [hfind]
  simp only [hver, Bool.false_eq_true, if_false]

theorem update_current_user_ok {db : DB} {auth : Option AccessToken}
    {upd : UserProfileUpdate} {resp : UserProfileResponse} {db' : DB}
    (h : update_current_user db auth upd = .ok (resp, db')) :
    ∃ cu, get_current_user db auth = .ok cu ∧
      usernameTaken db cu upd.username = false ∧
      emailTaken db cu upd.email = false ∧
      resp = profileResp cu upd ∧
      db' = { db with users := replaceUser db.users cu.id (appliedUser cu upd) } := by
  unfold update_current_user at h
  cases hcu : get_current_user db auth with
  | error e => rw [hcu] at h; exact Except.noConfusion h
  | ok cu =>
    rw [hcu] at h
    simp only [] at h
    cases hu : usernameTaken db cu upd.username with
    | true => rw [hu] at h; simp at h
    | false =>
      rw [hu] at h
      cases he : emailTaken db cu upd.email with
      | true => rw [he] at h; simp at h
      | false =>
        rw [he] at h
        simp only [Bool.false_eq_true, if_false, Except.ok.injEq, Prod.mk.injEq] at h
        exact ⟨cu, rfl, hu, he, h.1.symm, h.2.symm⟩

theorem change_password_ok {db : DB} {auth : Option AccessToken} {payload : PasswordChange}
    {r : String} {db' : DB}
    (h : change_password db auth payload = .ok (r, db')) :
    ∃ cu, get_current_user db auth = .ok cu ∧
      verify_password payload.current_password cu.password_hash = true ∧
      r = "Password updated successfully" ∧
      db' = { db with users := replaceUser db.users cu.id (pwUser cu payload) } := by
  unfold change_password at h
  cases hcu : get_current_user db auth with
  | error e => rw [hcu] at h; exact Except.noConfusion h
  | ok cu =>
    rw [hcu] at h
    simp only [] at h
    cases hver : verify_password payload.current_password cu.password_hash with
    | false =>
      rw [hver] at h
      simp at h
    | true =>
      rw [hver] at h
      simp only [Bool.not_true, Bool.false_eq_true, if_false, Except.ok.injEq,
        Prod.mk.injEq] at h
      exact ⟨cu, rfl, hver, h.1.symm, h.2.symm⟩

theorem change_password_wrong {db : DB} {auth : Option AccessToken} {payload : PasswordChange}
    {cu : User} (hcu : get_current_user db auth = .ok cu)
    (hver : verify_password payload.current_password cu.password_hash = false) :
    change_password db auth payload =
      .error { status := 400, detail := "Current password is incorrect" } := by
  unfold change_password
  rw [hcu]
  simp only [hver, Bool.not_false, if_true]

theorem create_calculation_ok {db : DB} {auth : Option AccessToken}
    {req : CalculationCreate} {c : Calculation} {db' : DB}
    (h : create_calculation db auth req = .ok (c, db')) :
    ∃ cu, get_current_user db auth = .ok cu ∧
      ¬(req.type = CalculationType.Divide ∧ req.b = 0) ∧
      c = newCalcOf db req cu ∧
      db' = { db with
        calcs := db.calcs ++ [newCalcOf db req cu],
        nextCalcId := db.nextCalcId + 1 } := by
  unfold create_calculation at h
  cases hcu : get_current_user db auth with
  | error e => rw [hcu] at h; exact Except.noConfusion h
  | ok cu =>
    rw [hcu] at h
    simp only [] at h
    by_cases hg : req.type = CalculationType.Divide ∧ req.b = 0
    · rw [if_pos hg] at h
      simp at h
    · rw [if_neg hg] at h
      simp only [Except.ok.injEq, Prod.mk.injEq] at h
      exact ⟨cu, rfl, hg, h.1.symm, h.2.symm⟩

theorem update_calculation_ok {db : DB} {auth : Option AccessToken} {cid : Nat}
    {upd : CalculationUpdate} {c : Calculation} {db' : DB}
    (h : update_calculation db auth cid upd = .ok (c, db')) :
    ∃ cu c0, get_current_user db auth = .ok cu ∧
      db.calcs.find? (fun x => x.id == cid && x.user_id == cu.id) = some c0 ∧
      ¬(upd.type.getD c0.type = CalculationType.Divide ∧ upd.b.getD c0.b = 0) ∧
      c = updatedCalc c0 upd ∧
      db' = { db with calcs := replaceCalc db.calcs c0.id (updatedCalc c0 upd) } := by
  unfold update_calculation at h
  cases hcu : get_current_user db auth with
  | error e => rw [hcu] at h; exact Except.noConfusion h
  | ok cu =>
    rw [hcu] at h
    simp only [] at h
    cases hfind : db.calcs.find? (fun x => x.id == cid && x.user_id == cu.id) with
    | none => rw [hfind] at h; simp at h
    | some c0 =>
      rw [hfind] at h
      simp only [] at h
      by_cases hg : upd.type.getD c0.type = CalculationType.Divide ∧ upd.b.getD c0.b = 0
      · rw [if_pos hg] at h
        simp at h
      · rw [if_neg hg] at h
        simp only [Except.ok.injEq, Prod.mk.injEq] at h
        exact ⟨cu, c0, rfl, hfind, hg, h.1.symm, h.2.symm⟩

theorem delete_calculation_ok {db : DB} {auth : Option AccessToken} {cid : Nat}
    {r : Unit} {db' : DB}
    (h : delete_calculation db auth cid = .ok (r, db')) :
    ∃ cu c0, get_current_user db auth = .ok cu ∧
      db.calcs.find? (fun x => x.id == cid && x.user_id == cu.id) = some c0 ∧
      db' = { db with calcs := db.calcs.filter (fun x => x.id != c0.id) } := by
  unfold delete_calculation at h
  cases hcu : get_current_user db auth with
  | error e => rw [hcu] at h; exact Except.noConfusion h
  | ok cu =>
    rw [hcu] at h
    simp only [] at h
    cases hfind : db.calcs.find? (fun x => x.id == cid && x.user_id == cu.id) with
    | none => rw [hfind] at h; simp at h
    | some c0 =>
      rw [hfind] at h
      simp only [Except.ok.injEq, Prod.mk.injEq] at h
      exact ⟨cu, c0, rfl, hfind, h.2.symm⟩

theorem create_calculation_auth_error {db : DB} {auth : Option AccessToken}
    {req : CalculationCreate} {e : ApiError} (h : get_current_user db auth = .error e) :
    create_calculation db auth req = .error e := by
  unfold create_calculation
  rw [h]

theorem read_calculations_auth_error {db : DB} {auth : Option AccessToken}
    {e : ApiError} (h : get_current_user db auth = .error e) :
    read_calculations db auth = .error e := by
  unfold read_calculations
  rw [h]
  rfl

theorem read_calculation_auth_error {db : DB} {auth : Option AccessToken} {cid : Nat}
    {e : ApiError} (h : get_current_user db auth = .error e) :
    read_calculation db auth cid = .error e := by
  unfold read_calculation
  rw [h]

theorem update_calculation_auth_error {db : DB} {auth : Option AccessToken} {cid : Nat}
    {upd : CalculationUpdate} {e : ApiError} (h : get_current_user db auth = .error e) :
    update_calculation db auth cid upd = .error e := by
  unfold update_calculation
  rw [h]

theorem delete_calculation_auth_error {db : DB} {auth : Option AccessToken} {cid : Nat}
    {e : ApiError} (h : get_current_user db auth = .error e) :
    delete_calculation db auth cid = .error e := by
  unfold delete_calculation
  rw [h]

theorem read_calculations_ok {db : DB} {auth : Option AccessToken} {cu : User}
    (hcu : get_current_user db auth = .ok cu) :
    read_calculations db auth = .ok (db.calcs.filter (fun c => c.user_id == cu.id)) := by
  unfold read_calculations
  rw [hcu]
  rfl

theorem read_calculation_ok {db : DB} {auth : Option AccessToken} {cid : Nat}
    {c : Calculation} (h : read_calculation db auth cid = .ok c) :
    ∃ cu, get_current_user db auth = .ok cu ∧ c ∈ db.calcs ∧
      c.id = cid ∧ c.user_id = cu.id := by
  unfold read_calculation at h
  cases hcu : get_current_user db auth with
  | error e => rw [hcu] at h; exact Except.noConfusion h
  | ok cu =>
    rw [hcu] at h
    simp only [] at h
    cases hfind : db.calcs.find? (fun x => x.id == cid && x.user_id == cu.id) with
    | none => rw [hfind] at h; simp at h
    | some c0 =>
      rw [hfind] at h
      have hc : c0 = c := by cases h; rfl
      subst hc
      have hp := @List.find?_some Calculation
        (fun x => x.id == cid && x.user_id == cu.id) c0 db.calcs hfind
      simp only [Bool.and_eq_true, beq_iff_eq] at hp
      exact ⟨cu, rfl, List.mem_of_find?_eq_some hfind, hp.1, hp.2⟩

/-! ## Claim theorems -/

/-- C6: hashing then verifying round-trips: for every password accepted at
registration (pydantic requires at least 8 characters), verifying it against
its own hash succeeds — so a freshly registered user can immediately log in
with that password — and verifying any distinct password against that hash
fails. -/
theorem hash_verify_roundtrip (p q : String) (hlen : 8 ≤ p.length) :
    verify_password p (hash_password p) = true ∧
    (q ≠ p → verify_password q (hash_password p) = false) ∧
    (∀ db req r db', req.password = p → register_user db req = .ok (r, db') →
      (login_user db' { username := req.username, password := p }).isOk = true) := by
  refine ⟨(verify_hash_iff p p).mpr rfl, ?_, ?_⟩
  · intro hne
    cases hq : verify_password q (hash_password p) with
    | false => rfl
    | true => exact absurd ((verify_hash_iff q p).mp hq) hne
  · intro db req r db' hp h
    subst hp
    obtain ⟨hemail, huser, hr, hdb⟩ := register_user_ok h
    subst hdb
    have hnone : db.users.find? (fun x => x.username == req.username) = none :=
      List.find?_eq_none.mpr (fun x hx => by simp [huser x hx])
    have hfind : (db.users ++ [newUserOf db req]).find?
        (fun x => x.username == req.username) = some (newUserOf db req) := by
      have hone : List.find? (fun x => x.username == req.username) [newUserOf db req] =
          some (newUserOf db req) :=
        List.find?_cons_of_pos _ (beq_iff_eq.mpr rfl)
      rw [List.find?_append, hnone, hone]
      rfl
    have hver : verify_password req.password (newUserOf db req).password_hash = true :=
      (verify_hash_iff _ _).mpr rfl
    rw [login_user_ok hfind hver]
    rfl

/-- Witness for C6 at a concrete password and a distinct candidate. -/
theorem hash_verify_roundtrip_witness :
    verify_password "password123" (hash_password "password123") = true ∧
    verify_password "wrongpass99" (hash_password "password123") = false := by
  have h := hash_verify_roundtrip "password123" "wrongpass99" (by decide)
  exact ⟨h.1, h.2.1 (by decide)⟩

/-- C8: when both the email and the username of a registration request are
already stored, `register_user` reports the email conflict: the email lookup
runs first, so the response is 400 "Email already registered", not
"Username already taken". -/
theorem register_reports_email_conflict_first (db : DB) (req : UserCreate)
    (he : ∃ u ∈ db.users, u.email = req.email)
    (_hn : ∃ u ∈ db.users, u.username = req.username) :
    register_user db req = .error { status := 400, detail := "Email already registered" } :=
  register_email_conflict he

/-- Witness for C8: alice's email and bob's username are both taken. -/
theorem register_reports_email_conflict_first_witness :
    register_user dbW { username := "bob", email := "alice@example.com", password := "password123" } = .error { status := 400, detail := "Email already registered" } :=
  register_reports_email_conflict_first dbW
    { username := "bob", email := "alice@example.com", password := "password123" }
    ⟨aliceW, by decide, by decide⟩ ⟨bobW, by decide, by decide⟩

/-- C2: login succeeds with a bearer token naming the user exactly when a
stored user carries the requested username and the password verifies against
that user's hash; otherwise it fails with 401 "Invalid credentials".  The
handler never writes the store (it returns no state). -/
theorem login_token_iff_valid_credentials (db : DB) (req : UserLogin)
    (hnd : (db.users.map (fun u => u.username)).Nodup) :
    (∃ u ∈ db.users, u.username = req.username ∧
        verify_password req.password u.password_hash = true ∧
        login_user db req = .ok { access_token := create_access_token u.username, token_type := "bearer" }) ∨
    ((∀ u ∈ db.users, u.username = req.username →
        verify_password req.password u.password_hash = false) ∧
      login_user db req = .error { status := 401, detail := "Invalid credentials" }) := by
  cases hf : db.users.find? (fun x => x.username == req.username) with
  | none =>
    right
    refine ⟨?_, login_user_no_user hf⟩
    intro u hu hun
    exact absurd (by simp [hun] : (fun x : User => x.username == req.username) u = true)
      (List.find?_eq_none.mp hf u hu)
  | some u =>
    have hmem := List.mem_of_find?_eq_some hf
    have hun : u.username = req.username := by
      have hp := @List.find?_some User (fun x => x.username == req.username) u db.users hf
      simpa using hp
    cases hv : verify_password req.password u.password_hash with
    | true =>
      left
      exact ⟨u, hmem, hun, hv, login_user_ok hf hv⟩
    | false =>
      right
      refine ⟨?_, login_user_bad_password hf hv⟩
      intro v hv2 hvn
      have hveq : v = u := List.inj_on_of_nodup_map hnd hv2 hmem (by rw [hvn, hun])
      rw [hveq]
      exact hv

/-- Witness for C2 at the stored user alice with her correct password. -/
theorem login_token_iff_valid_credentials_witness :
    (∃ u ∈ dbW.users, u.username = "alice" ∧
        verify_password "securepass123" u.password_hash = true ∧
        login_user dbW { username := "alice", password := "securepass123" } = .ok { access_token := create_access_token u.username, token_type := "bearer" }) ∨
    ((∀ u ∈ dbW.users, u.username = "alice" →
        verify_password "securepass123" u.password_hash = false) ∧
      login_user dbW { username := "alice", password := "securepass123" } =
        .error { status := 401, detail := "Invalid credentials" }) :=
  login_token_iff_valid_credentials dbW
    { username := "alice", password := "securepass123" } (by decide)

/-- C10: no user-facing response exposes the stored password hash: the
serialization `toUserRead` is invariant under any change of the hash and
yields only id, username, email and created_at; the responses of register,
read-current-user and profile-update all factor through it. -/
theorem responses_hide_password_hash :
    (∀ (u : User) (s : String), toUserRead { u with password_hash := s } = toUserRead u) ∧
    (∀ db req r db', register_user db req = .ok (r, db') →
      ∃ u ∈ db'.users, r = toUserRead u) ∧
    (∀ db auth r, read_current_user db auth = .ok r → ∃ u ∈ db.users, r = toUserRead u) ∧
    (∀ db auth upd resp db', update_current_user db auth upd = .ok (resp, db') →
      ∃ u ∈ db'.users, resp.user = toUserRead u) := by
  refine ⟨fun u s => rfl, ?_, ?_, ?_⟩
  · intro db req r db' h
    obtain ⟨-, -, hr, hdb⟩ := register_user_ok h
    subst hdb
    exact ⟨newUserOf db req, List.mem_append_right _ (List.mem_singleton_self _), hr⟩
  · intro db auth r h
    unfold read_current_user at h
    cases hcu : get_current_user db auth with
    | error e => rw [hcu] at h; exact Except.noConfusion h
    | ok cu =>
      rw [hcu] at h
      have hr : r = toUserRead cu := by
        simp [Except.map] at h
        exact h.symm
      exact ⟨cu, get_current_user_mem hcu, hr⟩
  · intro db auth upd resp db' h
    obtain ⟨cu, hcu, -, -, hresp, hdb⟩ := update_current_user_ok h
    subst hdb
    subst hresp
    exact ⟨appliedUser cu upd,
      mem_replaceBy_of_mem (get_current_user_mem hcu) rfl, rfl⟩

/-- Witness for C10: alice's profile response is her `UserRead` view. -/
theorem responses_hide_password_hash_witness :
    ∃ u ∈ dbW.users, toUserRead aliceW = toUserRead u :=
  responses_hide_password_hash.2.2.1 dbW (some tokW) (toUserRead aliceW) (by decide)

theorem valid_username_nonempty {upd : UserProfileUpdate} {n : String}
    (hv : upd.valid = true) (hun : upd.username = some n) : n.isEmpty = false := by
  unfold UserProfileUpdate.valid at hv
  rw [hun, Bool.and_eq_true] at hv
  have h2 : (decide (3 ≤ n.length) && decide (n.length ≤ 50)) = true := hv.1
  rw [Bool.and_eq_true] at h2
  have h3 : 3 ≤ n.length := of_decide_eq_true h2.1
  cases hemp : n.isEmpty with
  | false => rfl
  | true =>
    exfalso
    have hnil : n = "" := (String.isEmpty_iff n).mp hemp
    rw [hnil] at h3
    exact absurd h3 (by decide)

/-- C4: creating or updating a calculation whose effective type is Divide
with effective divisor 0 is rejected by the guard with status 422 and an
error mentioning "Division by zero"; the error carries no new store, so
nothing is written.  Consequently every stored Divide calculation in a
reachable store has a nonzero divisor, making its division well-defined. -/
theorem divide_by_zero_guard :
    (∀ db auth req cu, get_current_user db auth = .ok cu →
      req.type = CalculationType.Divide → req.b = 0 →
      ∃ e, create_calculation db auth req = .error e ∧ e.status = 422 ∧
        ∃ pre post, e.detail = pre ++ "Division by zero" ++ post) ∧
    (∀ db auth cid upd cu c0, get_current_user db auth = .ok cu →
      db.calcs.find? (fun x => x.id == cid && x.user_id == cu.id) = some c0 →
      upd.type.getD c0.type = CalculationType.Divide → upd.b.getD c0.b = 0 →
      ∃ e, update_calculation db auth cid upd = .error e ∧ e.status = 422 ∧
        ∃ pre post, e.detail = pre ++ "Division by zero" ++ post) ∧
    (∀ db, Reachable db → ∀ c ∈ db.calcs, c.type = CalculationType.Divide → c.b ≠ 0) := by
  refine ⟨?_, ?_, ?_⟩
  · intro db auth req cu hcu hdiv hb0
    refine ⟨{ status := 422, detail := "Division by zero is not allowed" }, ?_, rfl,
      "", " is not allowed", by decide⟩
    unfold create_calculation
    rw [hcu]
    simp only []
    rw [if_pos ⟨hdiv, hb0⟩]
  · intro db auth cid upd cu c0 hcu hfind hdiv hb0
    refine ⟨{ status := 422, detail := "Division by zero is not allowed" }, ?_, rfl,
      "", " is not allowed", by decide⟩
    unfold update_calculation
    rw [hcu]
    simp only []
    rw [hfind]
    simp only []
    rw [if_pos ⟨hdiv, hb0⟩]
  · intro db hreach
    exact (reachable_DBInv hreach).2.2.2.2.2.2

/-- Witness for C4: alice dividing 10 by 0 is rejected with 422. -/
theorem divide_by_zero_guard_witness :
    ∃ e, create_calculation dbW (some tokW)
        { a := 10, b := 0, type := CalculationType.Divide } = .error e ∧
      e.status = 422 ∧ ∃ pre post, e.detail = pre ++ "Division by zero" ++ post :=
  divide_by_zero_guard.1 dbW (some tokW)
    { a := 10, b := 0, type := CalculationType.Divide } aliceW (by decide) rfl rfl

/-- C7: a created calculation stores exactly the request's operands and type
together with the result computed by that type's arithmetic (Add is addition,
Subtract subtraction, Multiply multiplication, Divide division for a nonzero
divisor), and an updated calculation's result is recomputed from its
effective type and operands. -/
theorem calculation_result_matches_type :
    (∀ (a b : Rat), computeResult CalculationType.Add a b = a + b ∧
      computeResult CalculationType.Subtract a b = a - b ∧
      computeResult CalculationType.Multiply a b = a * b ∧
      (b ≠ 0 → computeResult CalculationType.Divide a b = a / b)) ∧
    (∀ db auth req c db', create_calculation db auth req = .ok (c, db') →
      c.a = req.a ∧ c.b = req.b ∧ c.type = req.type ∧
      c.result = computeResult c.type c.a c.b ∧ c ∈ db'.calcs) ∧
    (∀ db auth cid upd c db', update_calculation db auth cid upd = .ok (c, db') →
      ∃ c0 : Calculation, c.a = upd.a.getD c0.a ∧ c.b = upd.b.getD c0.b ∧
        c.type = upd.type.getD c0.type ∧
        c.result = computeResult c.type c.a c.b ∧ c ∈ db'.calcs) := by
  refine ⟨fun a b => ⟨rfl, rfl, rfl, fun h => rfl⟩, ?_, ?_⟩
  · intro db auth req c db' h
    obtain ⟨cu, hcu, hg, hc, hdb⟩ := create_calculation_ok h
    subst hc
    subst hdb
    exact ⟨rfl, rfl, rfl, rfl, List.mem_append_right _ (List.mem_singleton_self _)⟩
  · intro db auth cid upd c db' h
    obtain ⟨cu, c0, hcu, hfind, hg, hc, hdb⟩ := update_calculation_ok h
    subst hc
    subst hdb
    exact ⟨c0, rfl, rfl, rfl, rfl,
      mem_replaceBy_of_mem (List.mem_of_find?_eq_some hfind) rfl⟩

/-- Witness for C7: alice creating 10 Add 5 stores result 15. -/
theorem calculation_result_matches_type_witness :
    newCalcW.a = calcReqW.a ∧ newCalcW.b = calcReqW.b ∧ newCalcW.type = calcReqW.type ∧
    newCalcW.result = computeResult newCalcW.type newCalcW.a newCalcW.b ∧
    newCalcW ∈ dbWAfterCreate.calcs :=
  calculation_result_matches_type.2.1 dbW (some tokW) calcReqW newCalcW dbWAfterCreate rfl

/-- C9: the profile-update response carries a (non-null) refreshed token
exactly when a username is supplied in the (pydantic-valid) request — even
when it equals the current username; token_type is "bearer" in every
response; fields not supplied in the request, and the password hash, are
left unchanged on the stored user. -/
theorem profile_update_token_refresh (db : DB) (auth : Option AccessToken)
    (upd : UserProfileUpdate) (resp : UserProfileResponse) (db' : DB)
    (hvalid : upd.valid = true)
    (h : update_current_user db auth upd = .ok (resp, db')) :
    (resp.access_token.isSome = true ↔ upd.username.isSome = true) ∧
    resp.token_type = "bearer" ∧
    (∃ cu, get_current_user db auth = .ok cu ∧
      db' = { db with users := replaceUser db.users cu.id (appliedUser cu upd) } ∧
      resp.user = toUserRead (appliedUser cu upd) ∧
      (upd.username = none → (appliedUser cu upd).username = cu.username) ∧
      (upd.email = none → (appliedUser cu upd).email = cu.email) ∧
      (appliedUser cu upd).password_hash = cu.password_hash ∧
      (appliedUser cu upd).id = cu.id ∧
      (appliedUser cu upd).created_at = cu.created_at) := by
  obtain ⟨cu, hcu, hu, he, hresp, hdb⟩ := update_current_user_ok h
  subst hresp
  have htruthy : pyTruthy upd.username = upd.username.isSome := by
    cases hun : upd.username with
    | none => rfl
    | some n =>
      have hne := valid_username_nonempty hvalid hun
      simp [pyTruthy, hne]
  refine ⟨?_, rfl, cu, hcu, hdb, rfl, ?_, ?_, rfl, rfl, rfl⟩
  · show ((profileResp cu upd).access_token).isSome = true ↔ upd.username.isSome = true
    unfold profileResp
    simp only []
    rw [htruthy]
    cases hb : upd.username.isSome with
    | true => simp
    | false => simp
  · intro hnone
    simp [appliedUser, applyOpt, pyTruthy, hnone]
  · intro hnone
    simp [appliedUser, applyOpt, pyTruthy, hnone]

/-- Witness for C9: alice supplies a new username and receives a token. -/
theorem profile_update_token_refresh_witness :
    (respW.access_token.isSome = true ↔ updW.username.isSome = true) ∧
    respW.token_type = "bearer" :=
  have h := profile_update_token_refresh dbW (some tokW) updW respW dbWAfterUpdate
    (by decide) (by decide)
  ⟨h.1, h.2.1⟩

/-- C1: every calculation endpoint is scoped to the authenticated user.
A request with no bearer token is rejected 401 "Not authenticated"; any
failed authentication yields a 401 error propagated unchanged, and the error
carries no state, so no record is created, read, modified or deleted.  An
authenticated listing returns exactly the stored calculations whose user_id
equals the authenticated user's id; a created calculation is owned by its
creator; and read, update and delete only ever touch a calculation owned by
the authenticated user. -/
theorem calc_endpoints_user_scoped :
    (∀ db req, create_calculation db none req =
      .error { status := 401, detail := "Not authenticated" }) ∧
    (∀ db, read_calculations db none =
      .error { status := 401, detail := "Not authenticated" }) ∧
    (∀ db cid, read_calculation db none cid =
      .error { status := 401, detail := "Not authenticated" }) ∧
    (∀ db cid upd, update_calculation db none cid upd =
      .error { status := 401, detail := "Not authenticated" }) ∧
    (∀ db cid, delete_calculation db none cid =
      .error { status := 401, detail := "Not authenticated" }) ∧
    (∀ db auth e, get_current_user db auth = .error e → e.status = 401 ∧
      (∀ req, create_calculation db auth req = .error e) ∧
      read_calculations db auth = .error e ∧
      (∀ cid, read_calculation db auth cid = .error e) ∧
      (∀ cid upd, update_calculation db auth cid upd = .error e) ∧
      (∀ cid, delete_calculation db auth cid = .error e)) ∧
    (∀ db auth cu l, get_current_user db auth = .ok cu →
      read_calculations db auth = .ok l →
      ∀ c, c ∈ l ↔ c ∈ db.calcs ∧ c.user_id = cu.id) ∧
    (∀ db auth req c db' cu, get_current_user db auth = .ok cu →
      create_calculation db auth req = .ok (c, db') → c.user_id = cu.id) ∧
    (∀ db auth cid c cu, get_current_user db auth = .ok cu →
      read_calculation db auth cid = .ok c → c ∈ db.calcs ∧ c.user_id = cu.id) ∧
    (∀ db auth cid upd c db' cu, get_current_user db auth = .ok cu →
      update_calculation db auth cid upd = .ok (c, db') → c.user_id = cu.id) ∧
    (∀ db auth cid r db' cu, get_current_user db auth = .ok cu →
      delete_calculation db auth cid = .ok (r, db') →
      ∃ c0 ∈ db.calcs, c0.user_id = cu.id ∧
        db' = { db with calcs := db.calcs.filter (fun x => x.id != c0.id) }) := by
  refine ⟨fun db req => rfl, fun db => rfl, fun db cid => rfl, fun db cid upd => rfl,
    fun db cid => rfl, ?_, ?_, ?_, ?_, ?_, ?_⟩
  · intro db auth e he
    exact ⟨get_current_user_error_401 he, fun req => create_calculation_auth_error he,
      read_calculations_auth_error he, fun cid => read_calculation_auth_error he,
      fun cid upd => update_calculation_auth_error he,
      fun cid => delete_calculation_auth_error he⟩
  · intro db auth cu l hcu hl c
    rw [read_calculations_ok hcu] at hl
    have hleq : l = db.calcs.filter (fun x => x.user_id == cu.id) := by
      injection hl with h2
      exact h2.symm
    subst hleq
    simp [List.mem_filter]
  · intro db auth req c db' cu hcu h
    obtain ⟨cu', hcu', hg, hc, hdb⟩ := create_calculation_ok h
    rw [hcu] at hcu'
    injection hcu' with hcueq
    subst hcueq
    subst hc
    rfl
  · intro db auth cid c cu hcu h
    obtain ⟨cu', hcu', hmem, hid, huid⟩ := read_calculation_ok h
    rw [hcu] at hcu'
    injection hcu' with hcueq
    subst hcueq
    exact ⟨hmem, huid⟩
  · intro db auth cid upd c db' cu hcu h
    obtain ⟨cu', c0, hcu', hfind, hg, hc, hdb⟩ := update_calculation_ok h
    rw [hcu] at hcu'
    injection hcu' with hcueq
    subst hcueq
    subst hc
    have hp := @List.find?_some Calculation
      (fun x => x.id == cid && x.user_id == cu.id) c0 db.calcs hfind
    simp only [Bool.and_eq_true, beq_iff_eq] at hp
    exact hp.2
  · intro db auth cid r db' cu hcu h
    obtain ⟨cu', c0, hcu', hfind, hdb⟩ := delete_calculation_ok h
    rw [hcu] at hcu'
    injection hcu' with hcueq
    subst hcueq
    have hp := @List.find?_some Calculation
      (fun x => x.id == cid && x.user_id == cu.id) c0 db.calcs hfind
    simp only [Bool.and_eq_true, beq_iff_eq] at hp
    exact ⟨c0, List.mem_of_find?_eq_some hfind, hp.2, hdb⟩

/-- Witness for C1: an unauthenticated listing is rejected 401, and alice's
authenticated listing returns exactly her calculation. -/
theorem calc_endpoints_user_scoped_witness :
    read_calculations dbW none = .error { status := 401, detail := "Not authenticated" } ∧
    (∀ c, c ∈ [calcW] ↔ c ∈ dbW.calcs ∧ c.user_id = aliceW.id) :=
  ⟨calc_endpoints_user_scoped.2.1 dbW,
    calc_endpoints_user_scoped.2.2.2.2.2.2.1 dbW (some tokW) aliceW [calcW]
      (by decide) (by decide)⟩

/-- C3: reachable stores never hold two users sharing a username or an
email.  Register rejects a stored email with 400 "Email already registered",
then a stored username with 400 "Username already taken"; profile update
rejects a change to a taken username, and then (when the username passes) a
change to a taken email, each with status 400.  A rejecting handler returns
an error carrying no state, so the store is unchanged. -/
theorem user_uniqueness_enforced :
    (∀ db, Reachable db → (db.users.map (fun u => u.username)).Nodup ∧
      (db.users.map (fun u => u.email)).Nodup) ∧
    (∀ db req, (∃ u ∈ db.users, u.email = req.email) →
      register_user db req = .error { status := 400, detail := "Email already registered" }) ∧
    (∀ db req, (∀ u ∈ db.users, u.email ≠ req.email) →
      (∃ u ∈ db.users, u.username = req.username) →
      register_user db req = .error { status := 400, detail := "Username already taken" }) ∧
    (∀ db auth upd cu n, get_current_user db auth = .ok cu →
      upd.username = some n → n.isEmpty = false → n ≠ cu.username →
      (∃ u ∈ db.users, u.username = n) →
      update_current_user db auth upd =
        .error { status := 400, detail := "Username already taken" }) ∧
    (∀ db auth upd cu e, get_current_user db auth = .ok cu →
      (∀ n, upd.username = some n → n.isEmpty = false → n ≠ cu.username →
        ∀ u ∈ db.users, u.username ≠ n) →
      upd.email = some e → e.isEmpty = false → e ≠ cu.email →
      (∃ u ∈ db.users, u.email = e) →
      update_current_user db auth upd =
        .error { status := 400, detail := "Email already registered" }) := by
  refine ⟨?_, ?_, ?_, ?_, ?_⟩
  · intro db hreach
    have hinv := reachable_DBInv hreach
    exact ⟨hinv.2.1, hinv.2.2.1⟩
  · intro db req he
    exact register_email_conflict he
  · intro db req he hn
    exact register_username_conflict he hn
  · intro db auth upd cu n hcu hun hemp hne hex
    obtain ⟨u, hu, hname⟩ := hex
    have hsome : (db.users.find? (fun x => x.username == n)).isSome = true :=
      List.find?_isSome.mpr ⟨u, hu, by simp [hname]⟩
    have ht : usernameTaken db cu (some n) = true := by
      simp [usernameTaken, hemp, hne, hsome]
    unfold update_current_user
    rw [hcu]
    simp only []
    rw [hun]
    simp [ht]
  · intro db auth upd cu e hcu hfree hue hemp hne hex
    have hu_false : usernameTaken db cu upd.username = false := by
      cases hun : upd.username with
      | none => rfl
      | some n =>
        unfold usernameTaken
        cases hemp2 : n.isEmpty with
        | true => simp [hemp2]
        | false =>
          by_cases hnc : n = cu.username
          · simp [hnc]
          · have hfr := hfree n hun hemp2 hnc
            have hnone : db.users.find? (fun x => x.username == n) = none :=
              List.find?_eq_none.mpr (fun x hx => by simp [hfr x hx])
            simp [hnone]
    obtain ⟨u, hu, hmail⟩ := hex
    have hsome : (db.users.find? (fun x => x.email == e)).isSome = true :=
      List.find?_isSome.mpr ⟨u, hu, by simp [hmail]⟩
    have ht : emailTaken db cu (some e) = true := by
      simp [emailTaken, hemp, hne, hsome]
    unfold update_current_user
    rw [hcu]
    simp only []
    rw [hu_false]
    simp only [Bool.false_eq_true, if_false]
    rw [hue]
    simp [ht]

/-- Witness for C3: registration with bob's email is rejected, and alice
renaming herself to "bob" is rejected. -/
theorem user_uniqueness_enforced_witness :
    register_user dbW { username := "carol", email := "bob@example.com", password := "password123" } = .error { status := 400, detail := "Email already registered" } ∧
    update_current_user dbW (some tokW) { username := some "bob", email := none } =
      .error { status := 400, detail := "Username already taken" } :=
  ⟨user_uniqueness_enforced.2.1 dbW
      { username := "carol", email := "bob@example.com", password := "password123" }
      ⟨bobW, by decide, by decide⟩,
    user_uniqueness_enforced.2.2.2.1 dbW (some tokW)
      { username := some "bob", email := none } aliceW "bob"
      (by decide) rfl (by decide) (by decide) ⟨bobW, by decide, by decide⟩⟩

/-- C5 counterexample: when the new password equals the current one, a
successful change-password leaves the stored hash equal to the hash of the
old password, and login with the old password still succeeds afterwards —
contradicting the claim that login with the old password fails after every
successful change. -/
theorem change_password_same_password_cex :
    change_password dbW (some tokW)
      { current_password := "securepass123", new_password := "securepass123" } =
      .ok ("Password updated successfully", dbW) ∧
    login_user dbW { username := "alice", password := "securepass123" } =
      .ok { access_token := create_access_token "alice", token_type := "bearer" } := by
  exact ⟨by decide, by decide⟩

/-- C5 (amended): change-password verifies the supplied current password:
on failure it answers 400 "Current password is incorrect" and returns no
state, so the stored hash is unchanged and the old password still logs in;
on success it stores the hash of the new password, answers "Password updated
successfully", login with the new password then succeeds, and — provided the
new password differs from the current one — login with the previous password
fails 401. -/
theorem change_password_spec (db : DB) (auth : Option AccessToken)
    (payload : PasswordChange) (cu : User)
    (hcu : get_current_user db auth = .ok cu)
    (hids : (db.users.map (fun u => u.id)).Nodup) :
    (verify_password payload.current_password cu.password_hash = false →
      change_password db auth payload =
        .error { status := 400, detail := "Current password is incorrect" } ∧
      (∀ p0, verify_password p0 cu.password_hash = true →
        login_user db { username := cu.username, password := p0 } =
          .ok { access_token := create_access_token cu.username, token_type := "bearer" })) ∧
    (verify_password payload.current_password cu.password_hash = true →
      ∃ db', change_password db auth payload = .ok ("Password updated successfully", db') ∧
        pwUser cu payload ∈ db'.users ∧
        (pwUser cu payload).password_hash = hash_password payload.new_password ∧
        login_user db' { username := cu.username, password := payload.new_password } =
          .ok { access_token := create_access_token cu.username, token_type := "bearer" } ∧
        (payload.current_password ≠ payload.new_password →
          login_user db' { username := cu.username, password := payload.current_password } =
            .error { status := 401, detail := "Invalid credentials" })) := by
  have hfind := get_current_user_find hcu
  constructor
  · intro hver
    refine ⟨change_password_wrong hcu hver, ?_⟩
    intro p0 hp0
    exact login_user_ok hfind hp0
  · intro hver
    refine ⟨{ db with users := replaceUser db.users cu.id (pwUser cu payload) }, ?_, ?_, rfl,
      ?_, ?_⟩
    · unfold change_password
      rw [hcu]
      simp only [hver, Bool.not_true, Bool.false_eq_true, if_false]
      rfl
    · exact mem_replaceBy_of_mem (get_current_user_mem hcu) rfl
    · have hfind' : (replaceUser db.users cu.id (pwUser cu payload)).find?
          (fun x => x.username == cu.username) = some (pwUser cu payload) :=
        find?_replaceBy hfind hids rfl (beq_iff_eq.mpr rfl)
      have hver' : verify_password payload.new_password
          (pwUser cu payload).password_hash = true :=
        (verify_hash_iff _ _).mpr rfl
      exact @login_user_ok
        { db with users := replaceUser db.users cu.id (pwUser cu payload) }
        { username := cu.username, password := payload.new_password }
        (pwUser cu payload) hfind' hver'
    · intro hne
      have hfind' : (replaceUser db.users cu.id (pwUser cu payload)).find?
          (fun x => x.username == cu.username) = some (pwUser cu payload) :=
        find?_replaceBy hfind hids rfl (beq_iff_eq.mpr rfl)
      have hver' : verify_password payload.current_password
          (pwUser cu payload).password_hash = false := by
        cases hvv : verify_password payload.current_password
            (pwUser cu payload).password_hash with
        | false => rfl
        | true =>
          exact absurd ((verify_hash_iff _ _).mp hvv) hne
      exact login_user_bad_password hfind' hver'

/-- Witness for C5 (amended) at alice changing to a fresh password. -/
theorem change_password_spec_witness :
    ∃ db', change_password dbW (some tokW) pwPayloadW =
        .ok ("Password updated successfully", db') ∧
      login_user db' { username := "alice", password := "newpass456x" } =
        .ok { access_token := create_access_token "alice", token_type := "bearer" } ∧
      login_user db' { username := "alice", password := "securepass123" } =
        .error { status := 401, detail := "Invalid credentials" } := by
  obtain ⟨db', hcp, hmem, hhash, hnew, hold⟩ :=
    (change_password_spec dbW (some tokW) pwPayloadW aliceW (by decide) (by decide)).2
      (by decide)
  exact ⟨db', hcp, hnew, hold (by decide)⟩
